import Mathlib

/-!
Verification model of the dohodi transaction ingestion & budget aggregation
engine (salary-month calendar, CSV record parser, classifier, ledger
aggregation and budget projection).

Modelling conventions, shared by all definitions below:
* JavaScript `number` arithmetic is modelled over `ℚ` (exact rationals).
  The amounts handled by the program are short decimal fractions for which
  IEEE float64 arithmetic of the same expressions agrees with `ℚ` on every
  property stated here up to well below one minor currency unit, and the
  integer calendar arithmetic (epoch milliseconds up to ~2^43) is exact in
  float64, so `Math.floor` of a float division by `86400000` equals integer
  floor division.
* A JavaScript `Date` holds local-time calendar fields plus milliseconds
  within the day; `getTime` converts through the proleptic Gregorian
  calendar exactly as ECMAScript `MakeDay`/`MakeTime` does (the target
  locale, `ru-RU`, has a fixed UTC offset and no DST, so local time is an
  affine shift of UTC and date arithmetic done entirely in local fields is
  faithful).
* `Int` division `/` below is Euclidean division, which for the positive
  literal divisors used here coincides with `Math.floor` of the real
  quotient.
-/

/-- Local-time point: proleptic Gregorian calendar fields plus the
millisecond count within the day (`0 ≤ ms < 86400000`), mirroring the
observable fields of a JavaScript `Date`. -/
structure DateTime where
  year : Int
  month : Int
  day : Int
  ms : Int
deriving DecidableEq, Repr

/-- Gregorian leap-year test, as in ECMAScript `DaysInYear`. -/
def isLeap (y : Int) : Bool :=
  decide ((y % 4 = 0 ∧ ¬ y % 100 = 0) ∨ y % 400 = 0)

/-- Length of month `m` (1-indexed) of year `y`. -/
def daysInMonth (y m : Int) : Int :=
  if m = 2 then (if isLeap y then 29 else 28)
  else if m = 4 ∨ m = 6 ∨ m = 9 ∨ m = 11 then 30
  else 31

/-- Cumulative day count before month `m` in a non-leap year. -/
def monthOffset (m : Int) : Int :=
  if m = 1 then 0 else if m = 2 then 31 else if m = 3 then 59
  else if m = 4 then 90 else if m = 5 then 120 else if m = 6 then 151
  else if m = 7 then 181 else if m = 8 then 212 else if m = 9 then 243
  else if m = 10 then 273 else if m = 11 then 304 else 334

/-- Cumulative day count before month `m` of year `y`. -/
def daysBeforeMonth (y m : Int) : Int :=
  monthOffset m + (if 3 ≤ m ∧ isLeap y = true then 1 else 0)

/-- Number of leap years in `[1, y-1]` (as a signed count for `y ≤ 0`). -/
def leapsBefore (y : Int) : Int :=
  (y - 1) / 4 - (y - 1) / 100 + (y - 1) / 400

/-- Day number of the civil date `y-m-d` counted from the Unix epoch
1970-01-01; equals ECMAScript `MakeDay(y, m-1, d)`. -/
def daysFromEpoch (y m d : Int) : Int :=
  365 * (y - 1970) + (leapsBefore y - 477) + daysBeforeMonth y m + (d - 1)

/-- Milliseconds in one day. -/
def msPerDay : Int := 86400000

/-- Epoch milliseconds of a `DateTime`, as JavaScript `Date.prototype.getTime`
(up to the fixed local-time offset, which cancels in every comparison and
difference below). -/
def DateTime.getTime (t : DateTime) : Int :=
  daysFromEpoch t.year t.month t.day * msPerDay + t.ms

/-- The `DateTime`s that correspond to actual (non-`NaN`) JavaScript dates:
calendar fields in range, millisecond count within the day. -/
def DateTime.Valid (t : DateTime) : Prop :=
  1 ≤ t.month ∧ t.month ≤ 12 ∧ 1 ≤ t.day ∧ t.day ≤ daysInMonth t.year t.month ∧
    0 ≤ t.ms ∧ t.ms < 86400000

instance (t : DateTime) : Decidable t.Valid := by
  unfold DateTime.Valid; infer_instance

/-- Salary month boundary day (source constant `SALARY_DAY`). -/
def SALARY_DAY : Int := 23

/-- Salary-month key of a date (source `getSalaryMonthKey`); the key string
`"YYYY-MM"` is modelled as the pair (year, month) it denotes, with
`salaryKeyString` below recovering the exact rendered string. -/
def getSalaryMonthKey (t : DateTime) : Int × Int :=
  if t.day < SALARY_DAY then
    if t.month - 1 < 1 then (t.year - 1, 12) else (t.year, t.month - 1)
  else (t.year, t.month)

/-- Left-pad a (nonnegative) month number to two digits, as
`String(month).padStart(2, '0')`. -/
def pad2 (n : Int) : String :=
  if n < 10 then "0" ++ toString n else toString n

/-- The rendered salary-month key string `"YYYY-MM"`. -/
def salaryKeyString (k : Int × Int) : String :=
  toString k.1 ++ "-" ++ pad2 k.2

/-- Start and end instants of a salary month (source `getSalaryMonthRange`):
the 23rd of the key month at 00:00:00.000 through the 22nd of the next
month at 23:59:59.000. -/
def getSalaryMonthRange (k : Int × Int) : Int × Int :=
  let s := daysFromEpoch k.1 k.2 23 * msPerDay
  let e :=
    if k.2 + 1 > 12 then daysFromEpoch (k.1 + 1) 1 22 * msPerDay + 86399000
    else daysFromEpoch k.1 (k.2 + 1) 22 * msPerDay + 86399000
  (s, e)

/-- Inclusive range test of a date against a salary month (source
`isInSalaryMonth`). -/
def isInSalaryMonth (t : DateTime) (k : Int × Int) : Bool :=
  decide ((getSalaryMonthRange k).1 ≤ t.getTime) &&
    decide (t.getTime ≤ (getSalaryMonthRange k).2)

/-- One-based day index of a date within its own salary month (source
`getSalaryMonthDay`): floor of the millisecond difference from the period
start divided by a day, plus one. -/
def getSalaryMonthDay (t : DateTime) : Int :=
  (t.getTime - (getSalaryMonthRange (getSalaryMonthKey t)).1) / msPerDay + 1

/-- Total day count of a salary month (source `getSalaryMonthDays`). -/
def getSalaryMonthDays (k : Int × Int) : Int :=
  ((getSalaryMonthRange k).2 - (getSalaryMonthRange k).1) / msPerDay + 1

/-! Calendar arithmetic lemmas. -/

theorem leapsBefore_succ (y : Int) :
    leapsBefore (y + 1) = leapsBefore y + (if isLeap y = true then 1 else 0) := by
  unfold isLeap leapsBefore
  simp only [decide_eq_true_eq, Int.add_sub_cancel]
  by_cases h : (y % 4 = 0 ∧ ¬ y % 100 = 0) ∨ y % 400 = 0
  · rw [if_pos h]; omega
  · rw [if_neg h]; push_neg at h; omega

theorem daysInMonth_bounds (y m : Int) :
    28 ≤ daysInMonth y m ∧ daysInMonth y m ≤ 31 := by
  unfold daysInMonth; split_ifs <;> omega

theorem daysBeforeMonth_succ (y m : Int) (h1 : 1 ≤ m) (h2 : m ≤ 11) :
    daysBeforeMonth y (m + 1) = daysBeforeMonth y m + daysInMonth y m := by
  interval_cases m <;>
    rcases h : isLeap y with _ | _ <;>
    simp [daysBeforeMonth, monthOffset, daysInMonth, h]

theorem daysFromEpoch_jan (y : Int) :
    daysFromEpoch (y + 1) 1 1 = daysFromEpoch y 12 31 + 1 := by
  have hs := leapsBefore_succ y
  unfold daysFromEpoch daysBeforeMonth monthOffset
  rcases h : isLeap y with _ | _ <;> simp only [h] at hs ⊢ <;>
    norm_num at hs ⊢ <;> omega

theorem daysFromEpoch_day (y m d : Int) :
    daysFromEpoch y m d = daysFromEpoch y m 1 + (d - 1) := by
  unfold daysFromEpoch; ring

theorem getSalaryMonthKey_spec (t : DateTime) :
    (t.day < 23 → 2 ≤ t.month → getSalaryMonthKey t = (t.year, t.month - 1)) ∧
    (t.day < 23 → t.month = 1 → getSalaryMonthKey t = (t.year - 1, 12)) ∧
    (23 ≤ t.day → getSalaryMonthKey t = (t.year, t.month)) := by
  unfold getSalaryMonthKey SALARY_DAY
  refine ⟨fun h1 h2 => ?_, fun h1 h2 => ?_, fun h1 => ?_⟩
  · rw [if_pos h1, if_neg (by omega)]
  · rw [if_pos h1, if_pos (by omega)]
  · rw [if_neg (by omega)]

theorem getSalaryMonthKey_month_bounds (t : DateTime) (h : t.Valid) :
    1 ≤ (getSalaryMonthKey t).2 ∧ (getSalaryMonthKey t).2 ≤ 12 := by
  obtain ⟨hm1, hm2, _⟩ := h
  unfold getSalaryMonthKey SALARY_DAY
  split_ifs <;> dsimp only <;> omega

theorem getSalaryMonthRange_spec (k : Int × Int) (h1 : 1 ≤ k.2) (h2 : k.2 ≤ 12) :
    getSalaryMonthRange k =
      (daysFromEpoch k.1 k.2 23 * msPerDay,
        (daysFromEpoch k.1 k.2 23 + (daysInMonth k.1 k.2 - 1)) * msPerDay + 86399000) := by
  obtain ⟨y, m⟩ := k
  dsimp only at h1 h2 ⊢
  unfold getSalaryMonthRange msPerDay
  dsimp only
  simp only [Prod.mk.injEq]
  by_cases hm : m = 12
  · subst hm
    rw [if_pos (by norm_num)]
    refine ⟨trivial, ?_⟩
    have hj := daysFromEpoch_jan y
    have h22 := daysFromEpoch_day (y + 1) 1 22
    have h31 := daysFromEpoch_day y 12 31
    have h23 := daysFromEpoch_day y 12 23
    have hd : daysInMonth y 12 = 31 := by norm_num [daysInMonth]
    rw [hd]
    omega
  · rw [if_neg (by omega)]
    refine ⟨trivial, ?_⟩
    have hbm := daysBeforeMonth_succ y m h1 (by omega)
    unfold daysFromEpoch
    omega

theorem key_offset_bounds (t : DateTime) (h : t.Valid) :
    daysFromEpoch (getSalaryMonthKey t).1 (getSalaryMonthKey t).2 23 ≤
      daysFromEpoch t.year t.month t.day ∧
    daysFromEpoch t.year t.month t.day ≤
      daysFromEpoch (getSalaryMonthKey t).1 (getSalaryMonthKey t).2 23 +
        (daysInMonth (getSalaryMonthKey t).1 (getSalaryMonthKey t).2 - 1) := by
  obtain ⟨hm1, hm2, hd1, hd2, _, _⟩ := h
  by_cases hday : t.day < 23
  · by_cases hm : t.month = 1
    · rw [(getSalaryMonthKey_spec t).2.1 hday hm]
      dsimp only
      have hj := daysFromEpoch_jan (t.year - 1)
      have h0 : t.year - 1 + 1 = t.year := by ring
      rw [h0] at hj
      have h31 := daysFromEpoch_day (t.year - 1) 12 31
      have h23 := daysFromEpoch_day (t.year - 1) 12 23
      have hdd := daysFromEpoch_day t.year 1 t.day
      have hdt : daysInMonth (t.year - 1) 12 = 31 := by norm_num [daysInMonth]
      rw [hdt, hm] at *
      omega
    · rw [(getSalaryMonthKey_spec t).1 hday (by omega)]
      dsimp only
      have hbm := daysBeforeMonth_succ t.year (t.month - 1) (by omega) (by omega)
      have hmm : t.month - 1 + 1 = t.month := by ring
      rw [hmm] at hbm
      have hdimb := daysInMonth_bounds t.year (t.month - 1)
      unfold daysFromEpoch
      omega
  · rw [(getSalaryMonthKey_spec t).2.2 (by omega)]
    dsimp only
    unfold daysFromEpoch
    omega

theorem getSalaryMonthDays_eq (k : Int × Int) (h1 : 1 ≤ k.2) (h2 : k.2 ≤ 12) :
    getSalaryMonthDays k = daysInMonth k.1 k.2 := by
  unfold getSalaryMonthDays
  rw [getSalaryMonthRange_spec k h1 h2]
  dsimp only
  unfold msPerDay
  have := daysInMonth_bounds k.1 k.2
  omega

theorem isInSalaryMonth_self (t : DateTime) (h : t.Valid) (hsec : t.ms % 1000 = 0) :
    isInSalaryMonth t (getSalaryMonthKey t) = true := by
  obtain ⟨hb1, hb2⟩ := getSalaryMonthKey_month_bounds t h
  have hr := getSalaryMonthRange_spec (getSalaryMonthKey t) hb1 hb2
  have hof := key_offset_bounds t h
  obtain ⟨_, _, _, _, hms1, hms2⟩ := h
  unfold isInSalaryMonth
  rw [Bool.and_eq_true, decide_eq_true_eq, decide_eq_true_eq, hr]
  dsimp only
  unfold DateTime.getTime msPerDay
  constructor <;> omega

theorem getSalaryMonthDay_bounds (t : DateTime) (h : t.Valid) :
    1 ≤ getSalaryMonthDay t ∧
      getSalaryMonthDay t ≤ getSalaryMonthDays (getSalaryMonthKey t) := by
  obtain ⟨hb1, hb2⟩ := getSalaryMonthKey_month_bounds t h
  have hr := getSalaryMonthRange_spec (getSalaryMonthKey t) hb1 hb2
  have hof := key_offset_bounds t h
  have hdays := getSalaryMonthDays_eq (getSalaryMonthKey t) hb1 hb2
  have hdimb := daysInMonth_bounds (getSalaryMonthKey t).1 (getSalaryMonthKey t).2
  obtain ⟨_, _, _, _, hms1, hms2⟩ := h
  unfold getSalaryMonthDay
  rw [hr, hdays]
  dsimp only
  unfold DateTime.getTime msPerDay
  constructor <;> omega

/-! JavaScript string primitives, modelled on `List Char` with structural
recursion (BMP text; the repository's data is Latin/Cyrillic/punctuation,
for which UTF-16 code units and code points coincide except where
`jsCharCodes` below expands surrogate pairs explicitly). -/

/-- Character class of the JavaScript `\s` regex class and `trim`,
restricted to the whitespace forms occurring in bank exports. -/
def jsIsSpace (c : Char) : Bool :=
  decide (c = ' ' ∨ c = '\t' ∨ c = '\n' ∨ c = '\r' ∨ c.toNat = 11 ∨
    c.toNat = 12 ∨ c.toNat = 160 ∨ c.toNat = 65279)

/-- Split a character list at every occurrence of `sep`, as JavaScript
`String.prototype.split` with a single-character separator. -/
def jsSplitChar (sep : Char) : List Char → List (List Char)
  | [] => [[]]
  | c :: cs =>
    if c = sep then [] :: jsSplitChar sep cs
    else
      match jsSplitChar sep cs with
      | [] => [[c]]
      | t :: ts => (c :: t) :: ts

/-- Both-ends whitespace trim on character lists (JavaScript `trim`). -/
def jsTrimList (cs : List Char) : List Char :=
  ((cs.dropWhile jsIsSpace).reverse.dropWhile jsIsSpace).reverse

/-- JavaScript `String.prototype.trim`. -/
def jsTrim (s : String) : String := ⟨jsTrimList s.data⟩

/-- Decimal digit test. -/
def isDigitChar (c : Char) : Bool := decide ('0' ≤ c) && decide (c ≤ '9')

/-- Value of a decimal digit string. -/
def digitsToNat (cs : List Char) : Nat :=
  cs.foldl (fun n c => 10 * n + (c.toNat - 48)) 0

/-- Single-character lowercase map of JavaScript `toLowerCase`, restricted
to basic Latin and the Cyrillic block used by this repository's data;
all other characters are fixed points here. -/
def jsCharToLower (c : Char) : Char :=
  if 'A' ≤ c ∧ c ≤ 'Z' then Char.ofNat (c.toNat + 32)
  else if 1040 ≤ c.toNat ∧ c.toNat ≤ 1071 then Char.ofNat (c.toNat + 32)
  else if c.toNat = 1025 then Char.ofNat 1105
  else c

/-- JavaScript `String.prototype.toLowerCase` (restricted as above). -/
def jsToLower (s : String) : String := ⟨s.data.map jsCharToLower⟩

/-- Does `hay` start with `pat`? -/
def listStartsWith : List Char → List Char → Bool
  | _, [] => true
  | [], _ :: _ => false
  | c :: cs, p :: ps => decide (c = p) && listStartsWith cs ps

/-- Does `hay` contain `pat` as a contiguous run? -/
def listContainsSub : List Char → List Char → Bool
  | [], pat => pat.isEmpty
  | c :: cs, pat => listStartsWith (c :: cs) pat || listContainsSub cs pat

/-- JavaScript `String.prototype.includes`. -/
def jsIncludes (s sub : String) : Bool := listContainsSub s.data sub.data

/-- UTF-16 code units of one code point (surrogate pair above U+FFFF). -/
def toUTF16 (c : Char) : List Nat :=
  if c.toNat < 65536 then [c.toNat]
  else [55296 + (c.toNat - 65536) / 1024, 56320 + (c.toNat - 65536) % 1024]

/-- The sequence of `charCodeAt` values of a string. -/
def jsCharCodes (s : String) : List Nat := (s.data.map toUTF16).flatten

/-- Wrap an integer to the signed 32-bit range, as JavaScript `ToInt32`
(the `| 0` coercion). -/
def toInt32 (n : Int) : Int := (n + 2147483648) % 4294967296 - 2147483648

/-- One step of the id hash: `hash = ((hash << 5) - hash) + code; hash |= 0`.
The 32-bit left shift wraps, the intermediate difference and sum are exact
in float64 (magnitude below 2^38), and `| 0` wraps the result. -/
def jsHashStep (h : Int) (c : Nat) : Int := toInt32 (toInt32 (h * 32) - h + (c : Int))

/-- The rolling hash of `generateId` over a whole string. -/
def jsStringHash (s : String) : Int := (jsCharCodes s).foldl jsHashStep 0

/-- Digit character of a base-36 digit (`0`-`9` then `a`-`z`). -/
def base36Digit (d : Nat) : Char :=
  if d < 10 then Char.ofNat (48 + d) else Char.ofNat (87 + d)

/-- Fuelled base-36 digit expansion; 32 digits of fuel cover every `Nat`
below `36^32`, far beyond the 32-bit hash values rendered here. -/
def toBase36Core : Nat → Nat → List Char → List Char
  | 0, n, acc => base36Digit (n % 36) :: acc
  | fuel + 1, n, acc =>
    if n < 36 then base36Digit n :: acc
    else toBase36Core fuel (n / 36) (base36Digit (n % 36) :: acc)

/-- JavaScript `Number.prototype.toString(36)` for nonnegative integers. -/
def toBase36 (n : Nat) : String := ⟨toBase36Core 32 n []⟩

/-- Fuelled decimal expansion of the proper fraction `n / d`; stops at the
exact terminating expansion (all values produced by `parseAmount` have
denominator a power of ten, well within 20 digits). -/
def fracDigits : Nat → Nat → Nat → List Char
  | 0, _, _ => []
  | fuel + 1, n, d =>
    if n = 0 then []
    else Char.ofNat (48 + n * 10 / d) :: fracDigits fuel (n * 10 % d) d

/-- JavaScript number-to-string template interpolation for the terminating
decimal values handled by this program: integer rendering when the value is
integral, otherwise sign, integer part, `.`, and the exact fraction digits
without trailing zeros — which is what JavaScript prints for such floats. -/
def jsNumToString (q : ℚ) : String :=
  let sign := if q < 0 then "-" else ""
  let n := q.num.natAbs
  if q.den = 1 then sign ++ Nat.repr n
  else sign ++ Nat.repr (n / q.den) ++ "." ++ ⟨fracDigits 20 (n % q.den) q.den⟩

/-- JavaScript `Math.abs`. -/
def jsAbs (q : ℚ) : ℚ := if q < 0 then -q else q

/-- JavaScript `Math.max` on two numbers. -/
def jsMax (a b : ℚ) : ℚ := if a < b then b else a

/-- Stable comparator-driven sort (insertion sort), the observable result
of JavaScript `Array.prototype.sort` for the total preorders used by this
program; `le a b` means `a` may stay before `b`. -/
def jsSortInsert (le : α → α → Bool) (x : α) : List α → List α
  | [] => [x]
  | y :: ys => if le x y then x :: y :: ys else y :: jsSortInsert le x ys

/-- Stable sort by repeated insertion (see `jsSortInsert`). -/
def jsStableSort (le : α → α → Bool) : List α → List α
  | [] => []
  | x :: xs => jsSortInsert le x (jsStableSort le xs)

/-! Transaction data model (source `types.ts`). -/

/-- Transaction direction, derived from the sign of the amount. -/
inductive TxType
  | expense
  | income
deriving DecidableEq, Repr

/-- Budget pool of a transaction. -/
inductive Pool
  | daily
  | monthly
  | mandatory
  | other
deriving DecidableEq, Repr

/-- The durable transaction record (source `Transaction`). -/
structure Transaction where
  id : String
  date : DateTime
  amount : ℚ
  category : String
  description : String
  cardNumber : String
  mcc : String
  type : TxType
  isFiltered : Bool
  filterReason : Option String
  pool : Pool
deriving DecidableEq, Repr

/-- Result of a classification rule (source `FilterResult`). -/
structure FilterResult where
  shouldInclude : Bool
  reason : Option String
deriving DecidableEq, Repr

/-- The classification configuration lists imported from `@/shared/config`
(the config module itself is outside the provided sources; every claim
below quantifies over it, as §9 of the design prescribes). -/
structure FilterConfig where
  EXCLUDED_PEOPLE : List String
  EXCLUDED_DESCRIPTIONS_INCOME : List String
  EXCLUDED_DESCRIPTIONS_EXPENSE : List String
  REFUND_KEYWORDS : List String
  EXPENSE_CATEGORIES : List String
  DAILY_CATEGORIES : List String
  MONTHLY_CATEGORIES : List String
deriving DecidableEq, Repr

/-- Income classification (source `filterIncome`), first match wins. -/
def filterIncome (cfg : FilterConfig) (tx : Transaction) : FilterResult :=
  let desc := jsToLower tx.description
  match cfg.EXCLUDED_DESCRIPTIONS_INCOME.find? (fun e => jsIncludes desc (jsToLower e)) with
  | some e => ⟨false, some ("Исключено: " ++ e)⟩
  | none =>
    match cfg.EXCLUDED_PEOPLE.find? (fun p => jsIncludes tx.description p) with
    | some p => ⟨false, some ("Перевод от " ++ p)⟩
    | none =>
      match cfg.REFUND_KEYWORDS.find? (fun k => jsIncludes desc k) with
      | some _ => ⟨false, some "Возврат/компенсация"⟩
      | none =>
        if tx.category ∈ cfg.EXPENSE_CATEGORIES then
          ⟨false, some ("Возврат в категории " ++ tx.category)⟩
        else ⟨true, none⟩

/-- Expense classification (source `filterExpense`): the transfers-category
override comes first, then the configured exclusion lists. -/
def filterExpense (cfg : FilterConfig) (tx : Transaction) : FilterResult :=
  let desc := jsToLower tx.description
  if tx.category = "Переводы" then
    if jsIncludes desc "sovcombank" || jsIncludes desc "совкомбанк" then ⟨true, none⟩
    else ⟨false, some "Категория Переводы"⟩
  else
    match cfg.EXCLUDED_DESCRIPTIONS_EXPENSE.find?
        (fun e => jsIncludes desc (jsToLower e) || jsIncludes tx.description e) with
    | some e => ⟨false, some e⟩
    | none =>
      match cfg.EXCLUDED_PEOPLE.find? (fun p => jsIncludes tx.description p) with
      | some p => ⟨false, some ("Перевод для " ++ p)⟩
      | none => ⟨true, none⟩

/-- Pool assignment (source `determinePool`). -/
def determinePool (cfg : FilterConfig) (tx : Transaction) : Pool :=
  if tx.type = TxType.income then Pool.other
  else if tx.category ∈ cfg.DAILY_CATEGORIES then Pool.daily
  else if tx.category ∈ cfg.MONTHLY_CATEGORIES then Pool.monthly
  else
    let desc := jsToLower tx.description
    if jsIncludes desc "sovcombank" || jsIncludes desc "совкомбанк" then Pool.mandatory
    else Pool.other

/-! Record parser (source `parseCSV.ts`). -/

/-- A parsed raw row before business rules (source `RawTransaction`). -/
structure RawTransaction where
  operationDate : String
  paymentDate : String
  cardNumber : String
  status : String
  operationAmount : ℚ
  operationCurrency : String
  paymentAmount : ℚ
  paymentCurrency : String
  cashback : String
  category : String
  mcc : String
  description : String
  bonuses : String
  investRounding : String
  amountWithRounding : String
deriving DecidableEq, Repr

/-- Numeric token cleanup and parse (source `parseAmount`): strip `\s`,
turn the first `,` into `.`, strip `"`, then `parseFloat`; empty or
unparsable input yields `0`. -/
def replaceFirstComma : List Char → List Char
  | [] => []
  | c :: cs => if c = ',' then '.' :: cs else c :: replaceFirstComma cs

/-- The numeric prefix accepted by `parseFloat` (optional sign, digits,
optional point and digits), as an exact rational; `none` models `NaN`.
Exponent suffixes and `Infinity`, absent from bank exports, are outside
the modelled domain. -/
def parseFloatQ (cs : List Char) : Option ℚ :=
  let sgn : Int := match cs with | '-' :: _ => -1 | _ => 1
  let rest := match cs with | '-' :: r => r | '+' :: r => r | r => r
  let intPart := rest.takeWhile isDigitChar
  let rest2 := rest.dropWhile isDigitChar
  let fracPart := match rest2 with | '.' :: r => r.takeWhile isDigitChar | _ => []
  if intPart.isEmpty && fracPart.isEmpty then none
  else some (Rat.divInt
    (sgn * ((digitsToNat intPart * 10 ^ fracPart.length + digitsToNat fracPart : Nat) : Int))
    ((10 ^ fracPart.length : Nat) : Int))

/-- Source `parseAmount`. -/
def parseAmount (s : String) : ℚ :=
  if s = "" then 0
  else
    let cleaned := (replaceFirstComma (s.data.filter (fun c => !jsIsSpace c))).filter
      (fun c => decide (c ≠ '"'))
    (parseFloatQ cleaned).getD 0

/-- Source `parseDate`: strip quotes, split date and time, split the
`DD.MM.YYYY` date on dots, and read the interpolated
`YYYY-MM-DDTHH:MM:SS` string as local calendar fields, exactly as the
ECMAScript `Date` ISO parser does for in-range numeric components (other
inputs produce an invalid date and are outside the modelled domain). -/
def parseDate (s : String) : DateTime :=
  let cleaned := s.data.filter (fun c => decide (c ≠ '"'))
  let parts := jsSplitChar ' ' cleaned
  let datePart := parts.getD 0 []
  let timePart := parts.getD 1 []
  let dmy := jsSplitChar '.' datePart
  let dayN := digitsToNat (dmy.getD 0 [])
  let monthN := digitsToNat (dmy.getD 1 [])
  let yearN := digitsToNat (dmy.getD 2 [])
  let time := if timePart.isEmpty then "00:00:00".data else timePart
  let hms := jsSplitChar ':' time
  let hh := digitsToNat (hms.getD 0 [])
  let mi := digitsToNat (hms.getD 1 [])
  let ss := digitsToNat (hms.getD 2 [])
  ⟨(yearN : Int), (monthN : Int), (dayN : Int), (((hh * 3600 + mi * 60 + ss) * 1000 : Nat) : Int)⟩

/-- Source `generateId`: rolling 32-bit hash of
`` `${operationDate}-${operationAmount}-${description}-${index}` ``,
rendered through `Math.abs(hash).toString(36)`. -/
def generateId (tx : RawTransaction) (index : Nat) : String :=
  let str := tx.operationDate ++ "-" ++ jsNumToString tx.operationAmount ++ "-" ++
    tx.description ++ "-" ++ Nat.repr index
  toBase36 (Int.natAbs (jsStringHash str))

/-- Token cleanup of `parseCSVLine`: `trim()` then
`replace(/^"|"$/g, '')` (at most one quote stripped from each end). -/
def stripOuterQuotes (cs : List Char) : List Char :=
  let cs1 := match cs with | '"' :: r => r | r => r
  match cs1.reverse with | '"' :: r => r.reverse | _ => cs1

/-- Quote-aware `;` tokenizer (source `parseCSVLine`): a `"` toggles the
in-quotes flag and is not kept; `;` splits only outside quotes. -/
def parseCSVLine (line : String) : List String :=
  let step := fun (st : List (List Char) × List Char × Bool) (c : Char) =>
    if c = '"' then (st.1, st.2.1, !st.2.2)
    else if c = ';' ∧ st.2.2 = false then
      (st.1 ++ [stripOuterQuotes (jsTrimList st.2.1)], [], st.2.2)
    else (st.1, st.2.1 ++ [c], st.2.2)
  let final := line.data.foldl step ([], [], false)
  (final.1 ++ [stripOuterQuotes (jsTrimList final.2.1)]).map (fun cs => (⟨cs⟩ : String))

/-- Body of the `parseCSV` loop for the line with 1-based index `i`:
`none` when the line is skipped (blank, fewer than 12 tokens, or status
other than the literal `"OK"`), otherwise the classified transaction. -/
def rowToTransaction (cfg : FilterConfig) (i : Nat) (rawLine : String) :
    Option Transaction :=
  let line := jsTrim rawLine
  if line = "" then none
  else
    let values := parseCSVLine line
    if values.length < 12 then none
    else
      let raw : RawTransaction := {
        operationDate := values.getD 0 ""
        paymentDate := values.getD 1 ""
        cardNumber := values.getD 2 ""
        status := values.getD 3 ""
        operationAmount := parseAmount (values.getD 4 "")
        operationCurrency := values.getD 5 ""
        paymentAmount := parseAmount (values.getD 6 "")
        paymentCurrency := values.getD 7 ""
        cashback := values.getD 8 ""
        category := values.getD 9 ""
        mcc := values.getD 10 ""
        description := values.getD 11 ""
        bonuses := values.getD 12 ""
        investRounding := values.getD 13 ""
        amountWithRounding := values.getD 14 "" }
      if raw.status ≠ "OK" then none
      else
        let isExpense := decide (raw.operationAmount < 0)
        let txBase : Transaction := {
          id := generateId raw i
          date := parseDate raw.operationDate
          amount := raw.operationAmount
          category := raw.category
          description := raw.description
          cardNumber := raw.cardNumber
          mcc := raw.mcc
          type := if isExpense then TxType.expense else TxType.income
          isFiltered := false
          filterReason := none
          pool := Pool.other }
        let fr := if isExpense then filterExpense cfg txBase else filterIncome cfg txBase
        let tx1 : Transaction :=
          { txBase with isFiltered := !fr.shouldInclude, filterReason := fr.reason }
        some { tx1 with pool := determinePool cfg tx1 }

/-- Source `parseCSV`: split on newlines, skip the header line, run the
row loop, and sort the result descending by date (stable). -/
def parseCSV (cfg : FilterConfig) (csvText : String) : List Transaction :=
  let lines := (jsSplitChar '\n' csvText.data).map (fun cs => (⟨cs⟩ : String))
  let txs := (lines.enum.drop 1).filterMap (fun p => rowToTransaction cfg p.1 p.2)
  jsStableSort (fun a b => decide (b.date.getTime ≤ a.date.getTime)) txs

/-- Source `loadCSVFromPublic`: `fetched = none` models a failed fetch (a
network error or a non-ok response; both land in the `catch`, which logs
and returns the empty list), `some text` a successful one. -/
def loadCSVFromPublic (cfg : FilterConfig) (fetched : Option String) : List Transaction :=
  match fetched with
  | some text => parseCSV cfg text
  | none => []

/-! Ledger store aggregation layer (source `useTransactionStore`). -/

/-- Fixed mandatory-payment amounts of the budget configuration. -/
structure MandatoryBudget where
  batman : ℚ
  claudeCode : ℚ
  debtPayment : ℚ
deriving DecidableEq, Repr

/-- User-adjustable budget configuration (source `BudgetState`). -/
structure BudgetState where
  income : ℚ
  mandatory : MandatoryBudget
  dailyTarget : ℚ
  totalDebt : ℚ
  paidDebt : ℚ
  foodPoolBudget : ℚ
  monthlyPoolBudget : ℚ
deriving DecidableEq, Repr

/-- Category aggregate row (source `CategoryData`). -/
structure CategoryData where
  name : String
  amount : ℚ
  percentage : ℚ
  count : Nat
deriving DecidableEq, Repr

/-- Salary-month aggregate row (source `MonthlyData`); the month key is the
(year, month) pair denoted by the `"YYYY-MM"` key string. -/
structure MonthlyData where
  month : Int × Int
  totalExpenses : ℚ
  totalIncome : ℚ
  dailyPoolSpent : ℚ
  monthlyPoolSpent : ℚ
  mandatorySpent : ℚ
  categories : List CategoryData
deriving DecidableEq, Repr

/-- Source `getFilteredTransactions`. -/
def getFilteredTransactions (txs : List Transaction) : List Transaction :=
  txs.filter (fun t => !t.isFiltered)

/-- The `reduce((sum, t) => sum + Math.abs(t.amount), 0)` accumulator. -/
def sumAbs (l : List Transaction) : ℚ :=
  l.foldl (fun s t => s + jsAbs t.amount) 0

/-- The `reduce((sum, t) => sum + t.amount, 0)` accumulator. -/
def sumAmount (l : List Transaction) : ℚ :=
  l.foldl (fun s t => s + t.amount) 0

/-- First-seen insertion order of the keys of a JavaScript `Map` built by
pushing each transaction under its category. -/
def categoryNamesInOrder (txs : List Transaction) : List String :=
  txs.foldl (fun acc tx => if tx.category ∈ acc then acc else acc ++ [tx.category]) []

/-- Accumulated absolute amount of one category. -/
def categoryAmount (txs : List Transaction) (name : String) : ℚ :=
  sumAbs (txs.filter (fun t => decide (t.category = name)))

/-- Accumulated count of one category. -/
def categoryCount (txs : List Transaction) (name : String) : Nat :=
  (txs.filter (fun t => decide (t.category = name))).length

/-- Source `getCategoryData`: group by category in insertion order, share
of the grouped total (0 when the total is 0), stable sort by amount
descending. -/
def getCategoryData (txs : List Transaction) : List CategoryData :=
  let names := categoryNamesInOrder txs
  let total := (names.map (fun n => categoryAmount txs n)).foldl (fun a b => a + b) 0
  let result := names.map (fun n =>
    { name := n
      amount := categoryAmount txs n
      percentage := if 0 < total then categoryAmount txs n / total * 100 else 0
      count := categoryCount txs n : CategoryData })
  jsStableSort (fun a b => decide (b.amount ≤ a.amount)) result

/-- First-seen insertion order of salary-month keys. -/
def monthKeysInOrder (txs : List Transaction) : List (Int × Int) :=
  txs.foldl (fun acc tx =>
    if getSalaryMonthKey tx.date ∈ acc then acc else acc ++ [getSalaryMonthKey tx.date]) []

/-- One output row of `getMonthlyData` for the key `k`. -/
def monthEntry (txs : List Transaction) (k : Int × Int) : MonthlyData :=
  let group := txs.filter (fun tx => decide (getSalaryMonthKey tx.date = k))
  let expenses := group.filter (fun t => decide (t.type = TxType.expense))
  let incomeTxs := group.filter (fun t => decide (t.type = TxType.income))
  { month := k
    totalExpenses := sumAbs expenses
    totalIncome := sumAmount incomeTxs
    dailyPoolSpent := sumAbs (expenses.filter (fun t => decide (t.pool = Pool.daily)))
    monthlyPoolSpent := sumAbs (expenses.filter (fun t => decide (t.pool ≠ Pool.daily)))
    mandatorySpent := sumAbs (expenses.filter (fun t => decide (t.pool = Pool.mandatory)))
    categories := getCategoryData expenses }

/-- Descending order on key pairs; on the zero-padded `"YYYY-MM"` key
strings of this program, `localeCompare` descending coincides with this
lexicographic descending order. -/
def keyLe (a b : Int × Int) : Bool :=
  decide (a.1 < b.1) || (decide (a.1 = b.1) && decide (a.2 ≤ b.2))

/-- Source `getMonthlyData`: group the filtered transactions by salary
month, aggregate each group, sort by key descending. -/
def getMonthlyData (txs : List Transaction) : List MonthlyData :=
  let filtered := getFilteredTransactions txs
  jsStableSort (fun a b => keyLe b.month a.month)
    ((monthKeysInOrder filtered).map (fun k => monthEntry filtered k))

/-- Result record of `getCurrentMonthStats`. -/
structure CurrentStats where
  dailyPoolSpent : ℚ
  monthlyPoolSpent : ℚ
  mandatorySpent : ℚ
  daysRemaining : Int
  dailyBudget : ℚ
  currentMonth : Int × Int
  currentDay : Int
  daysInMonth : Int
deriving DecidableEq, Repr

/-- Source `getCurrentMonthStats`; `now` stands for `new Date()`, used only
when the filtered list is empty. -/
def getCurrentMonthStats (txs : List Transaction) (budget : BudgetState)
    (now : DateTime) : CurrentStats :=
  let filtered := getFilteredTransactions txs
  let latestDate :=
    match filtered with
    | [] => now
    | t :: ts =>
      (ts.foldl (fun latest tx =>
        if latest.date.getTime < tx.date.getTime then tx else latest) t).date
  let currentMonth := getSalaryMonthKey latestDate
  let currentDay := getSalaryMonthDay latestDate
  let currentMonthTxs := filtered.filter (fun tx =>
    isInSalaryMonth tx.date currentMonth && decide (tx.type = TxType.expense))
  let dailyPoolSpent := sumAbs (currentMonthTxs.filter (fun t => decide (t.pool = Pool.daily)))
  let monthlyPoolSpent := sumAbs (currentMonthTxs.filter (fun t => decide (t.pool ≠ Pool.daily)))
  let mandatorySpent := sumAbs (currentMonthTxs.filter (fun t => decide (t.pool = Pool.mandatory)))
  let daysInMonthN := getSalaryMonthDays currentMonth
  let daysRemaining := daysInMonthN - currentDay + 1
  let dailyPool := budget.dailyTarget * (daysInMonthN : ℚ)
  let dailyBudget := jsMax 0 ((dailyPool - dailyPoolSpent) / ((daysRemaining : Int) : ℚ))
  { dailyPoolSpent := dailyPoolSpent
    monthlyPoolSpent := monthlyPoolSpent
    mandatorySpent := mandatorySpent
    daysRemaining := daysRemaining
    dailyBudget := dailyBudget
    currentMonth := currentMonth
    currentDay := currentDay
    daysInMonth := daysInMonthN }

/-- The `remainder` figure of the `BudgetCalculator` widget: actual income
of the current salary month (`currentMonthData?.totalIncome || 0`) minus
the two pool ceilings. -/
def budgetCalculatorRemainder (txs : List Transaction) (budget : BudgetState)
    (now : DateTime) : ℚ :=
  let stats := getCurrentMonthStats txs budget now
  let monthlyData := getMonthlyData txs
  let realIncome :=
    ((monthlyData.find? (fun m => decide (m.month = stats.currentMonth))).map
      (fun m => m.totalIncome)).getD 0
  realIncome - (budget.foodPoolBudget + budget.monthlyPoolBudget)

/-- The slice of the zustand store state relevant to loading (source
`TransactionState`): the transaction list, the loading flag and the
user-visible error flag. -/
structure StoreState where
  transactions : List Transaction
  isLoading : Bool
  error : Option String
deriving DecidableEq, Repr

/-- The `loadData` effect of `DashboardPage`: `setLoading(true)`, await
`loadCSVFromPublic` (which never rejects — its own `catch` returns `[]`),
`setTransactions(data)`, and `setLoading(false)` in `finally`. The
`setError('Ошибка загрузки данных')` branch is unreachable because the
awaited promise never rejects, so the error field is left unchanged. -/
def dashboardLoadData (cfg : FilterConfig) (st : StoreState)
    (fetched : Option String) : StoreState :=
  { st with transactions := loadCSVFromPublic cfg fetched, isLoading := false }

/-- The `DashboardPage` mount effect: `loadData` runs only when the stored
transaction list is empty. -/
def dashboardMount (cfg : FilterConfig) (st : StoreState)
    (fetched : Option String) : StoreState :=
  if st.transactions = [] then dashboardLoadData cfg st fetched else st

/-! Generic lemmas about the sort and the accumulators. -/

theorem mem_jsSortInsert {α : Type} (le : α → α → Bool) (x a : α) (l : List α) :
    a ∈ jsSortInsert le x l ↔ a = x ∨ a ∈ l := by
  induction l with
  | nil => simp [jsSortInsert]
  | cons y ys ih =>
    simp only [jsSortInsert]
    split
    · simp [List.mem_cons]
    · simp only [List.mem_cons, ih]
      tauto

theorem mem_jsStableSort {α : Type} (le : α → α → Bool) (a : α) (l : List α) :
    a ∈ jsStableSort le l ↔ a ∈ l := by
  induction l with
  | nil => simp [jsStableSort]
  | cons x xs ih =>
    simp [jsStableSort, mem_jsSortInsert, ih, List.mem_cons]

theorem foldl_add_shift (f : Transaction → ℚ) (l : List Transaction) (a : ℚ) :
    l.foldl (fun s t => s + f t) a = a + l.foldl (fun s t => s + f t) 0 := by
  induction l generalizing a with
  | nil => simp
  | cons x xs ih =>
    simp only [List.foldl_cons]
    rw [ih (a + f x), ih (0 + f x)]
    ring

theorem sumAbs_cons (t : Transaction) (l : List Transaction) :
    sumAbs (t :: l) = jsAbs t.amount + sumAbs l := by
  unfold sumAbs
  simp only [List.foldl_cons]
  rw [foldl_add_shift]
  ring

theorem sumAbs_filter_partition (l : List Transaction) (p : Transaction → Bool) :
    sumAbs (l.filter p) + sumAbs (l.filter (fun t => !(p t))) = sumAbs l := by
  induction l with
  | nil => simp [sumAbs]
  | cons t ts ih =>
    rcases h : p t with _ | _
    · have h1 : (t :: ts).filter p = ts.filter p := by simp [List.filter_cons, h]
      have h2 : (t :: ts).filter (fun x => !(p x)) = t :: ts.filter (fun x => !(p x)) := by
        simp [List.filter_cons, h]
      rw [h1, h2, sumAbs_cons, sumAbs_cons]
      linarith [ih]
    · have h1 : (t :: ts).filter p = t :: ts.filter p := by simp [List.filter_cons, h]
      have h2 : (t :: ts).filter (fun x => !(p x)) = ts.filter (fun x => !(p x)) := by
        simp [List.filter_cons, h]
      rw [h1, h2, sumAbs_cons, sumAbs_cons]
      linarith [ih]

theorem jsMax_eq_max (a b : ℚ) : jsMax a b = max a b := by
  unfold jsMax
  rcases lt_trichotomy a b with h | h | h
  · rw [if_pos h, max_eq_right h.le]
  · subst h; simp
  · rw [if_neg (not_lt.mpr h.le), max_eq_left h.le]

theorem jsMax_zero_nonneg (x : ℚ) : 0 ≤ jsMax 0 x := by
  unfold jsMax
  split
  · next h => exact le_of_lt h
  · exact le_refl 0

/-! Claim theorems. -/

/-- C2: in every period row produced by `getMonthlyData`, over any
transaction list, the daily-pool expense sum plus the monthly-pool expense
sum (the latter summing all expenses whose pool is not `daily`, merging
monthly, mandatory and other) equals the total expense sum: the pool split
is a total partition. -/
theorem c2_pool_partition (txs : List Transaction) (md : MonthlyData)
    (hmd : md ∈ getMonthlyData txs) :
    md.dailyPoolSpent + md.monthlyPoolSpent = md.totalExpenses := by
  unfold getMonthlyData at hmd
  rw [mem_jsStableSort] at hmd
  obtain ⟨k, _, rfl⟩ := List.mem_map.mp hmd
  unfold monthEntry
  dsimp only
  have hne : (fun t : Transaction => decide (t.pool ≠ Pool.daily)) =
      (fun t : Transaction => !(decide (t.pool = Pool.daily))) := by
    funext t; simp
  rw [hne]
  exact sumAbs_filter_partition _ _

/-- Concrete scenario input for the current-period projection: one included
daily-pool expense of 9000 dated 2025-05-13, in the salary month
2025-04-23 … 2025-05-22 (30 days, elapsed day 21, 10 days remaining). -/
def txC1 : Transaction :=
  { id := "t1", date := ⟨2025, 5, 13, 0⟩, amount := -9000, category := "Рестораны",
    description := "Кафе", cardNumber := "*1234", mcc := "5812",
    type := TxType.expense, isFiltered := false, filterReason := none,
    pool := Pool.daily }

/-- Budget configuration of the projection scenario (`dailyTarget = 1000`). -/
def budgetC1 : BudgetState :=
  { income := 145000, mandatory := ⟨0, 0, 0⟩, dailyTarget := 1000,
    totalDebt := 0, paidDebt := 0, foodPoolBudget := 50000,
    monthlyPoolBudget := 40000 }

/-- Reference date used where `new Date()` would be read. -/
def nowC1 : DateTime := ⟨2025, 5, 13, 0⟩

set_option maxRecDepth 8000 in
/-- C1: `getCurrentMonthStats` returns `daysRemaining = periodLength −
elapsedDayIndex + 1` and `dailyBudget = max(0, (dailyTarget × periodLength −
dailyPoolSpentSoFar) / daysRemaining)`, never negative; in the scenario
`dailyTarget = 1000`, `periodLength = 30`, `dailyPoolSpentSoFar = 9000`,
`daysRemaining = 10` the projected daily budget is 2100. -/
theorem c1_daily_budget_projection :
    (∀ (txs : List Transaction) (budget : BudgetState) (now : DateTime),
      (getCurrentMonthStats txs budget now).daysRemaining =
        (getCurrentMonthStats txs budget now).daysInMonth -
          (getCurrentMonthStats txs budget now).currentDay + 1 ∧
      (getCurrentMonthStats txs budget now).dailyBudget =
        max 0 ((budget.dailyTarget * ((getCurrentMonthStats txs budget now).daysInMonth : ℚ) -
          (getCurrentMonthStats txs budget now).dailyPoolSpent) /
          ((getCurrentMonthStats txs budget now).daysRemaining : ℚ)) ∧
      0 ≤ (getCurrentMonthStats txs budget now).dailyBudget) ∧
    (getCurrentMonthStats [txC1] budgetC1 nowC1).dailyPoolSpent = 9000 ∧
    (getCurrentMonthStats [txC1] budgetC1 nowC1).daysInMonth = 30 ∧
    (getCurrentMonthStats [txC1] budgetC1 nowC1).daysRemaining = 10 ∧
    (getCurrentMonthStats [txC1] budgetC1 nowC1).dailyBudget = 2100 := by
  refine ⟨fun txs budget now => ⟨rfl, ?_, ?_⟩, ?_, ?_, ?_, ?_⟩
  · rw [← jsMax_eq_max]; rfl
  · exact jsMax_zero_nonneg _
  · refine Rat.ext ?_ ?_ <;> with_unfolding_all decide
  · with_unfolding_all decide
  · with_unfolding_all decide
  · refine Rat.ext ?_ ?_ <;> with_unfolding_all decide

/-- Concrete fixture for the pool-partition claim: one included daily-pool
expense in the salary month 2025-04. -/
def txC2 : Transaction :=
  { id := "t2", date := ⟨2025, 5, 13, 0⟩, amount := -5, category := "Рестораны",
    description := "Кафе", cardNumber := "*1234", mcc := "5812",
    type := TxType.expense, isFiltered := false, filterReason := none,
    pool := Pool.daily }

/-- The single period row produced for `txC2`. -/
def mdC2 : MonthlyData := monthEntry [txC2] (2025, 4)

set_option maxRecDepth 8000 in
/-- Witness for `c2_pool_partition` at a concrete one-transaction ledger. -/
theorem c2_pool_partition_witness :
    mdC2 ∈ getMonthlyData [txC2] ∧
      mdC2.dailyPoolSpent + mdC2.monthlyPoolSpent = mdC2.totalExpenses :=
  ⟨by with_unfolding_all decide,
    c2_pool_partition [txC2] mdC2 (by with_unfolding_all decide)⟩

/-- C3 (amended): for every valid date with a whole-second time-of-day (as
every parsed transaction date has), the date lies inside its own salary
month; and for every valid date whatever its milliseconds, the day index
lies in `[1, lengthOf(periodKeyOf(d))]`. -/
theorem c3_calendar_invariant (t : DateTime) (h : t.Valid) :
    (t.ms % 1000 = 0 → isInSalaryMonth t (getSalaryMonthKey t) = true) ∧
    1 ≤ getSalaryMonthDay t ∧
    getSalaryMonthDay t ≤ getSalaryMonthDays (getSalaryMonthKey t) :=
  ⟨fun hsec => isInSalaryMonth_self t h hsec,
    (getSalaryMonthDay_bounds t h).1, (getSalaryMonthDay_bounds t h).2⟩

/-- C3 counterexample: the valid date 2025-11-22 23:59:59.001 lies outside
the salary month its own key denotes, because the range end is pinned at
23:59:59.000 — so `contains(d, periodKeyOf(d))` is not true for every
date-with-time. -/
theorem c3_counterexample :
    (⟨2025, 11, 22, 86399001⟩ : DateTime).Valid ∧
    isInSalaryMonth ⟨2025, 11, 22, 86399001⟩
      (getSalaryMonthKey ⟨2025, 11, 22, 86399001⟩) = false :=
  ⟨by decide, by decide⟩

/-- Witness for `c3_calendar_invariant` at 2025-11-22 14:30:25. -/
theorem c3_calendar_invariant_witness :
    (⟨2025, 11, 22, 52225000⟩ : DateTime).Valid ∧ (52225000 : Int) % 1000 = 0 ∧
    isInSalaryMonth ⟨2025, 11, 22, 52225000⟩
      (getSalaryMonthKey ⟨2025, 11, 22, 52225000⟩) = true ∧
    1 ≤ getSalaryMonthDay ⟨2025, 11, 22, 52225000⟩ ∧
    getSalaryMonthDay ⟨2025, 11, 22, 52225000⟩ ≤
      getSalaryMonthDays (getSalaryMonthKey ⟨2025, 11, 22, 52225000⟩) :=
  ⟨by decide, by decide,
    (c3_calendar_invariant ⟨2025, 11, 22, 52225000⟩ (by decide)).1 (by decide),
    (c3_calendar_invariant ⟨2025, 11, 22, 52225000⟩ (by decide)).2.1,
    (c3_calendar_invariant ⟨2025, 11, 22, 52225000⟩ (by decide)).2.2⟩

/-- C4: dates with day-of-month below 23 belong to the period that started
in the previous month (rolling the year back past January), dates with day
at least 23 to the period starting in the current month; in particular
2025-11-22 renders to "2025-10" and 2025-11-23 to "2025-11". -/
theorem c4_period_key_assignment :
    (∀ t : DateTime, t.Valid →
      (t.day < 23 → 2 ≤ t.month → getSalaryMonthKey t = (t.year, t.month - 1)) ∧
      (t.day < 23 → t.month = 1 → getSalaryMonthKey t = (t.year - 1, 12)) ∧
      (23 ≤ t.day → getSalaryMonthKey t = (t.year, t.month))) ∧
    salaryKeyString (getSalaryMonthKey ⟨2025, 11, 22, 0⟩) = "2025-10" ∧
    salaryKeyString (getSalaryMonthKey ⟨2025, 11, 23, 0⟩) = "2025-11" :=
  ⟨fun t _ => getSalaryMonthKey_spec t, by decide, by decide⟩

/-- Witness for `c4_period_key_assignment` at 2025-01-10 (January rollback)
and 2025-11-23 (boundary day). -/
theorem c4_period_key_assignment_witness :
    (⟨2025, 1, 10, 0⟩ : DateTime).Valid ∧
    getSalaryMonthKey ⟨2025, 1, 10, 0⟩ = (2024, 12) ∧
    getSalaryMonthKey ⟨2025, 11, 23, 0⟩ = (2025, 11) := by
  refine ⟨by decide, ?_, ?_⟩
  · have h := (c4_period_key_assignment.1 ⟨2025, 1, 10, 0⟩ (by decide)).2.1
      (by decide) rfl
    simpa using h
  · have h := (c4_period_key_assignment.1 ⟨2025, 11, 23, 0⟩ (by decide)).2.2
      (by decide)
    simpa using h

theorem foldl_latest_mem (t : Transaction) (ts : List Transaction) :
    (ts.foldl (fun latest tx =>
      if latest.date.getTime < tx.date.getTime then tx else latest) t) ∈ t :: ts := by
  induction ts generalizing t with
  | nil => simp
  | cons x xs ih =>
    simp only [List.foldl_cons]
    by_cases hc : t.date.getTime < x.date.getTime
    · rw [if_pos hc]
      have h := ih x
      simp only [List.mem_cons] at h ⊢
      tauto
    · rw [if_neg hc]
      have h := ih t
      simp only [List.mem_cons] at h ⊢
      tauto

theorem daysRemaining_ge_one (d : DateTime) (h : d.Valid) :
    1 ≤ getSalaryMonthDays (getSalaryMonthKey d) - getSalaryMonthDay d + 1 := by
  have hb := getSalaryMonthDay_bounds d h
  omega

/-- C10: for every transaction list (the empty list falling back to the
reference date) and budget configuration, `daysRemaining` computed inside
`getCurrentMonthStats` is at least 1 — the elapsed day index of any valid
date lies between 1 and the length of its own salary period — so the
division producing `dailyBudget` is never a division by zero. -/
theorem c10_days_remaining_positive (txs : List Transaction)
    (budget : BudgetState) (now : DateTime)
    (hdates : ∀ tx ∈ txs, tx.date.Valid) (hnow : now.Valid) :
    1 ≤ (getCurrentMonthStats txs budget now).daysRemaining := by
  unfold getCurrentMonthStats
  cases hf : getFilteredTransactions txs with
  | nil =>
    dsimp only
    exact daysRemaining_ge_one now hnow
  | cons t ts =>
    dsimp only
    have hmem : (ts.foldl (fun latest tx =>
        if latest.date.getTime < tx.date.getTime then tx else latest) t) ∈ t :: ts :=
      foldl_latest_mem t ts
    rw [← hf] at hmem
    unfold getFilteredTransactions at hmem
    exact daysRemaining_ge_one _ (hdates _ (List.mem_of_mem_filter hmem))

/-- Budget configuration used in the witness below. -/
def budgetC10 : BudgetState :=
  { income := 145000, mandatory := ⟨0, 0, 0⟩, dailyTarget := 1000,
    totalDebt := 0, paidDebt := 0, foodPoolBudget := 50000,
    monthlyPoolBudget := 40000 }

/-- Witness for `c10_days_remaining_positive` on the empty ledger. -/
theorem c10_days_remaining_positive_witness :
    (∀ tx ∈ ([] : List Transaction), tx.date.Valid) ∧
    (⟨2025, 1, 1, 0⟩ : DateTime).Valid ∧
    1 ≤ (getCurrentMonthStats [] budgetC10 ⟨2025, 1, 1, 0⟩).daysRemaining :=
  ⟨by simp, by decide,
    c10_days_remaining_positive [] budgetC10 ⟨2025, 1, 1, 0⟩ (by simp) (by decide)⟩

/-- C6: for every expense whose category is the literal transfers category
"Переводы", `filterExpense` includes it exactly when the lowercased
description contains one of the two hardcoded bank tokens, and otherwise
excludes it with the reason "Категория Переводы" — independently of every
configured exclusion list. -/
theorem c6_transfers_override (cfg : FilterConfig) (tx : Transaction)
    (hcat : tx.category = "Переводы") :
    (filterExpense cfg tx).shouldInclude =
      (jsIncludes (jsToLower tx.description) "sovcombank" ||
        jsIncludes (jsToLower tx.description) "совкомбанк") ∧
    ((filterExpense cfg tx).shouldInclude = false →
      (filterExpense cfg tx).reason = some "Категория Переводы") := by
  unfold filterExpense
  rw [if_pos hcat]
  rcases hb : jsIncludes (jsToLower tx.description) "sovcombank" ||
      jsIncludes (jsToLower tx.description) "совкомбанк" with _ | _ <;>
    simp [hb]

/-- Transfers-category expense whose description carries the bank token. -/
def txC6 : Transaction :=
  { id := "t6", date := ⟨2025, 5, 13, 0⟩, amount := -10, category := "Переводы",
    description := "Перевод СОВКОМБАНК", cardNumber := "*1234", mcc := "4829",
    type := TxType.expense, isFiltered := false, filterReason := none,
    pool := Pool.other }

/-- Exclusion lists that would all match `txC6`, to show they are ignored
on the transfers branch. -/
def cfgC6 : FilterConfig :=
  { EXCLUDED_PEOPLE := ["Перевод СОВКОМБАНК"]
    EXCLUDED_DESCRIPTIONS_INCOME := ["перевод"]
    EXCLUDED_DESCRIPTIONS_EXPENSE := ["Перевод"]
    REFUND_KEYWORDS := ["перевод"]
    EXPENSE_CATEGORIES := ["Переводы"]
    DAILY_CATEGORIES := []
    MONTHLY_CATEGORIES := [] }

set_option maxRecDepth 8000 in
/-- Witness for `c6_transfers_override`: the bank-token transfer stays
included although every exclusion list matches its description. -/
theorem c6_transfers_override_witness :
    txC6.category = "Переводы" ∧
    jsIncludes (jsToLower txC6.description) "совкомбанк" = true ∧
    (filterExpense cfgC6 txC6).shouldInclude = true := by
  refine ⟨rfl, by with_unfolding_all decide, ?_⟩
  have h := (c6_transfers_override cfgC6 txC6 rfl).1
  rw [h]
  with_unfolding_all decide

/-- Budget configuration of the surplus counterexample: declared income
100000 differs from the (absent) transaction income of the period. -/
def budgetC7 : BudgetState :=
  { income := 100000, mandatory := ⟨0, 0, 0⟩, dailyTarget := 1000,
    totalDebt := 0, paidDebt := 0, foodPoolBudget := 50000,
    monthlyPoolBudget := 40000 }

set_option maxRecDepth 8000 in
/-- C7 counterexample: on the empty ledger the widget's surplus figure is
`0 − (50000 + 40000) = −90000`, while `declaredIncome − pools` would be
`100000 − 90000 = 10000`; the code uses the period's actual transaction
income, not the declared income field. -/
theorem c7_counterexample :
    budgetCalculatorRemainder [] budgetC7 ⟨2025, 1, 1, 0⟩ = -90000 ∧
    budgetC7.income - (budgetC7.foodPoolBudget + budgetC7.monthlyPoolBudget) = 10000 ∧
    budgetCalculatorRemainder [] budgetC7 ⟨2025, 1, 1, 0⟩ ≠
      budgetC7.income - (budgetC7.foodPoolBudget + budgetC7.monthlyPoolBudget) := by
  refine ⟨?_, ?_, ?_⟩
  · refine Rat.ext ?_ ?_ <;> with_unfolding_all decide
  · refine Rat.ext ?_ ?_ <;> with_unfolding_all decide
  · intro h
    have h1 : (budgetCalculatorRemainder [] budgetC7 ⟨2025, 1, 1, 0⟩).num = -90000 := by
      with_unfolding_all decide
    have h2 : (budgetC7.income -
        (budgetC7.foodPoolBudget + budgetC7.monthlyPoolBudget)).num = 10000 := by
      with_unfolding_all decide
    rw [h] at h1
    rw [h1] at h2
    exact absurd h2 (by decide)

/-- C7 (amended): the widget's surplus equals the current period's actual
total income from transactions (zero when the period has no row) minus the
two pool ceilings; the declared income field of the budget configuration
plays no part, and a negative result is produced as-is, not clamped. -/
theorem c7_surplus_actual_income (txs : List Transaction) (b : BudgetState)
    (now : DateTime) :
    budgetCalculatorRemainder txs b now =
      (((getMonthlyData txs).find? (fun m =>
          decide (m.month = (getCurrentMonthStats txs b now).currentMonth))).map
        (fun m => m.totalIncome)).getD 0 -
        (b.foodPoolBudget + b.monthlyPoolBudget) ∧
    (∀ income2 : ℚ, budgetCalculatorRemainder txs { b with income := income2 } now =
      budgetCalculatorRemainder txs b now) :=
  ⟨rfl, fun _ => rfl⟩

/-- Empty classification configuration for the load-failure model. -/
def cfgC9 : FilterConfig := ⟨[], [], [], [], [], [], []⟩

/-- C9 evaluation: when the fetch fails on an initially empty store, the
mounted dashboard stores the empty list and the user-visible error flag
stays unset (`loadCSVFromPublic` swallows the failure, so the page's
`setError` call never runs). -/
theorem c9_load_failure_no_error_flag :
    (dashboardMount cfgC9 ⟨[], false, none⟩ none).error = none ∧
    (dashboardMount cfgC9 ⟨[], false, none⟩ none).transactions = [] ∧
    loadCSVFromPublic cfgC9 none = [] :=
  ⟨rfl, rfl, rfl⟩

/-- C5: a well-formed row (nonblank after trim, at least 12 tokens) yields
a transaction exactly when its status token is the literal "OK"; any other
status yields no transaction at all, not even a filtered one. -/
theorem c5_status_gate (cfg : FilterConfig) (i : Nat) (line : String)
    (hblank : jsTrim line ≠ "") (hlen : 12 ≤ (parseCSVLine (jsTrim line)).length) :
    (rowToTransaction cfg i line).isSome ↔
      (parseCSVLine (jsTrim line)).getD 3 "" = "OK" := by
  unfold rowToTransaction
  rw [if_neg hblank, if_neg (by omega)]
  dsimp only
  by_cases hs : (parseCSVLine (jsTrim line)).getD 3 "" = "OK"
  · rw [if_neg (by simpa using hs)]
    exact iff_of_true (by simp) hs
  · rw [if_pos (by simpa using hs)]
    exact iff_of_false (by simp) hs

/-- Empty classification configuration for the parser scenarios. -/
def cfgC5 : FilterConfig := ⟨[], [], [], [], [], [], []⟩

/-- Header line of the bank export (discarded unconditionally). -/
def csvHeader : String :=
  "Дата операции;Дата платежа;Номер карты;Статус;Сумма операции;Валюта операции;Сумма платежа;Валюта платежа;Кэшбэк;Категория;MCC;Описание;Бонусы;Округление;Сумма с округлением"

/-- Successful row of the two-row scenario. -/
def csvOkRow : String :=
  "22.11.2025 14:30:25;\"22.11.2025\";*1234;OK;\"-150,50\";RUB;\"-150,50\";RUB;;Рестораны;5812;Кафе Пример"

/-- The same row with status FAILED. -/
def csvFailedRow : String :=
  "22.11.2025 14:30:25;\"22.11.2025\";*1234;FAILED;\"-150,50\";RUB;\"-150,50\";RUB;;Рестораны;5812;Кафе Пример"

/-- Two-row scenario input: header, an OK row, a FAILED row. -/
def csvTextC5 : String := csvHeader ++ "\n" ++ csvOkRow ++ "\n" ++ csvFailedRow

set_option maxRecDepth 16000 in
/-- Witness for `c5_status_gate`: of two rows identical except status
"OK" versus "FAILED", only the OK row yields a transaction. -/
theorem c5_status_gate_witness :
    jsTrim csvOkRow ≠ "" ∧ 12 ≤ (parseCSVLine (jsTrim csvOkRow)).length ∧
    ((rowToTransaction cfgC5 1 csvOkRow).isSome ↔
      (parseCSVLine (jsTrim csvOkRow)).getD 3 "" = "OK") ∧
    (rowToTransaction cfgC5 1 csvOkRow).isSome = true ∧
    rowToTransaction cfgC5 2 csvFailedRow = none ∧
    (parseCSV cfgC5 csvTextC5).length = 1 :=
  ⟨by decide, by decide,
    c5_status_gate cfgC5 1 csvOkRow (by decide) (by decide),
    by with_unfolding_all decide, by with_unfolding_all decide,
    by with_unfolding_all decide⟩

theorem jsHashStep_eq_mul31 (h : Int) (c : Nat) :
    jsHashStep h c = toInt32 (31 * h + (c : Int)) := by
  unfold jsHashStep toInt32
  omega

theorem foldl_hash_congr (l : List Nat) (a : Int) :
    l.foldl jsHashStep a = l.foldl (fun h c => toInt32 (31 * h + (c : Int))) a := by
  induction l generalizing a with
  | nil => rfl
  | cons x xs ih =>
    simp only [List.foldl_cons, jsHashStep_eq_mul31]
    exact ih _

theorem jsStringHash_eq_mul31 (s : String) :
    jsStringHash s =
      (jsCharCodes s).foldl (fun h c => toInt32 (31 * h + (c : Int))) 0 :=
  foldl_hash_congr (jsCharCodes s) 0

/-- The hashed concatenation
`` `${operationDate}-${operationAmount}-${description}-${index}` `` of a
kept row, rebuilt from its parsed tokens. -/
def rowIdString (values : List String) (i : Nat) : String :=
  values.getD 0 "" ++ "-" ++ jsNumToString (parseAmount (values.getD 4 "")) ++ "-" ++
    values.getD 11 "" ++ "-" ++ Nat.repr i

theorem rowToTransaction_id (cfg : FilterConfig) (i : Nat) (line : String)
    (tx : Transaction) (h : rowToTransaction cfg i line = some tx) :
    tx.id = toBase36 (Int.natAbs
      (jsStringHash (rowIdString (parseCSVLine (jsTrim line)) i))) := by
  unfold rowToTransaction at h
  by_cases h1 : jsTrim line = ""
  · rw [if_pos h1] at h; exact absurd h (by simp)
  rw [if_neg h1] at h
  by_cases h2 : (parseCSVLine (jsTrim line)).length < 12
  · rw [if_pos h2] at h; exact absurd h (by simp)
  rw [if_neg h2] at h
  dsimp only at h
  by_cases h3 : (parseCSVLine (jsTrim line)).getD 3 "" ≠ "OK"
  · rw [if_pos h3] at h; exact absurd h (by simp)
  rw [if_neg h3] at h
  rw [Option.some_inj] at h
  subst h
  rfl

/-- C8: every transaction produced by `parseCSV` comes from a kept row, and
its id is the unsigned base-36 rendering of the 32-bit rolling hash —
accumulator times 31 (the shift-and-subtract form wraps to exactly this),
plus code unit, wrapped to 32 bits — of the concatenated operation-date
string, operation amount, description and 1-based line index. Since
`parseCSV` is a pure function of its input, re-parsing the same text
reproduces every id. -/
theorem c8_id_rolling_hash (cfg : FilterConfig) (text : String)
    (tx : Transaction) (htx : tx ∈ parseCSV cfg text) :
    ∃ p ∈ (((jsSplitChar '\n' text.data).map
        (fun cs => (⟨cs⟩ : String))).enum).drop 1,
      rowToTransaction cfg p.1 p.2 = some tx ∧
      tx.id = toBase36 (Int.natAbs
        ((jsCharCodes (rowIdString (parseCSVLine (jsTrim p.2)) p.1)).foldl
          (fun h c => toInt32 (31 * h + (c : Int))) 0)) := by
  unfold parseCSV at htx
  rw [mem_jsStableSort] at htx
  obtain ⟨p, hp, hrow⟩ := List.mem_filterMap.mp htx
  refine ⟨p, hp, hrow, ?_⟩
  rw [← jsStringHash_eq_mul31]
  exact rowToTransaction_id cfg p.1 p.2 tx hrow

/-- Empty classification configuration for the hash witness. -/
def cfgC8 : FilterConfig := ⟨[], [], [], [], [], [], []⟩

/-- One-row input for the hash witness. -/
def csvTextC8 : String :=
  "header\n01.02.2024;01.02.2024;*1;OK;-5;RUB;-5;RUB;;Еда;1;Обед"

/-- The single transaction parsed out of `csvTextC8`. -/
def txC8 : Transaction :=
  (parseCSV cfgC8 csvTextC8).getD 0
    ⟨"", ⟨0, 0, 0, 0⟩, 0, "", "", "", "", TxType.income, false, none, Pool.other⟩

set_option maxRecDepth 16000 in
/-- Witness for `c8_id_rolling_hash` on a concrete one-row input. -/
theorem c8_id_rolling_hash_witness :
    txC8 ∈ parseCSV cfgC8 csvTextC8 ∧
    ∃ p ∈ (((jsSplitChar '\n' csvTextC8.data).map
        (fun cs => (⟨cs⟩ : String))).enum).drop 1,
      rowToTransaction cfgC8 p.1 p.2 = some txC8 ∧
      txC8.id = toBase36 (Int.natAbs
        ((jsCharCodes (rowIdString (parseCSVLine (jsTrim p.2)) p.1)).foldl
          (fun h c => toInt32 (31 * h + (c : Int))) 0)) :=
  ⟨by with_unfolding_all decide,
    c8_id_rolling_hash cfgC8 csvTextC8 txC8 (by with_unfolding_all decide)⟩
